import Mathlib

/-!
Verification of the data-paradox game server (src/server.ts).

The server keeps four SQLite tables (teams, rounds, submissions, settings)
and exposes HTTP handlers that read and mutate them.  We embed the store as
an explicit `GameState` record of row lists, and each handler as a function
from state (plus request arguments) to a new state together with the
broadcast event it emits, or a typed error where the handler answers 400.
SQLite REAL columns are modelled as exact rationals (`ℚ`).
-/

namespace DataParadox

/-- Row of the `teams` table: `id INTEGER PRIMARY KEY AUTOINCREMENT`,
`name TEXT UNIQUE`, `balance REAL DEFAULT 2000`. -/
structure Team where
  id : Nat
  name : String
  balance : ℚ
deriving DecidableEq, Repr

/-- Row of the `rounds` table: `id`, `theme TEXT`, `actual_value REAL`
(NULL until revealed), `status TEXT DEFAULT 'open'` (the schema comment
allows 'open', 'closed', 'revealed'). -/
structure Round where
  id : Nat
  theme : String
  actual_value : Option ℚ
  status : String
deriving DecidableEq, Repr

/-- Row of the `submissions` table: `id`, `team_id`, `round_id`,
`predicted_value REAL`, `bid_amount REAL`, `score REAL DEFAULT 0`,
`error_percent REAL` (NULL until settled). -/
structure Submission where
  id : Nat
  team_id : Nat
  round_id : Nat
  predicted_value : ℚ
  bid_amount : ℚ
  score : ℚ
  error_percent : Option ℚ
deriving DecidableEq, Repr

/-- The database: the four tables plus the AUTOINCREMENT counters kept in
`sqlite_sequence`.  `settings` is a key/value association list. -/
structure GameState where
  teams : List Team
  rounds : List Round
  submissions : List Submission
  settings : List (String × String)
  nextTeamId : Nat
  nextRoundId : Nat
  nextSubmissionId : Nat
deriving DecidableEq, Repr

/-- Events pushed through `broadcast` to every connected WebSocket. -/
inductive Event where
  | settingsUpdated (key value : String)
  | roundStarted (id : Nat) (theme status : String)
  | submissionReceived (teamId : Nat)
  | roundRevealed (roundId : Nat) (actualValue : ℚ)
  | gameReset
deriving DecidableEq, Repr

/-- The two 400 answers of `POST /api/submissions`:
`"Insufficient balance"` and `"Already submitted for this round"`. -/
inductive SubmitError where
  | insufficientBalance
  | alreadySubmitted
deriving DecidableEq, Repr

/-- Handler `POST /api/submissions`.  Looks up the team, rejects when the
team is missing or `team.balance < bidAmount`, rejects a duplicate
`(team_id, round_id)` pair, otherwise inserts the row with `score = 0`
and `error_percent` NULL and broadcasts `SUBMISSION_RECEIVED`. -/
def submit (s : GameState) (teamId roundId : Nat) (predictedValue bidAmount : ℚ) :
    Except SubmitError (GameState × Event) :=
  match s.teams.find? (fun t => t.id == teamId) with
  | none => .error .insufficientBalance
  | some team =>
    if team.balance < bidAmount then
      .error .insufficientBalance
    else
      match s.submissions.find? (fun sub => sub.team_id == teamId && sub.round_id == roundId) with
      | some _ => .error .alreadySubmitted
      | none =>
        let sub : Submission :=
          { id := s.nextSubmissionId, team_id := teamId, round_id := roundId,
            predicted_value := predictedValue, bid_amount := bidAmount,
            score := 0, error_percent := none }
        .ok ({ s with
                submissions := s.submissions ++ [sub],
                nextSubmissionId := s.nextSubmissionId + 1 },
             .submissionReceived teamId)

/-- State after a `submit` call: on an error answer the store is untouched. -/
def submitState (s : GameState) (teamId roundId : Nat) (predictedValue bidAmount : ℚ) :
    GameState :=
  match submit s teamId roundId predictedValue bidAmount with
  | .ok (s1, _) => s1
  | .error _ => s

/-- The per-submission scoring computation of the reveal loop: given
`predicted_value`, the revealed `actualValue` and `bid_amount` it returns
`(errorPercent, finalScore)` exactly as the loop body computes them. -/
def settleScore (predicted actual bid : ℚ) : ℚ × ℚ :=
  let error := |predicted - actual|
  let errorPercent : ℚ :=
    if actual = 0 then (if predicted = 0 then 0 else 100)
    else (error / actual) * 100
  let multiplier : ℚ :=
    if errorPercent ≤ 2 then 3
    else if errorPercent ≤ 5 then 2
    else if errorPercent ≤ 10 then 3/2
    else 1
  let baseScore := bid * (1 / (1 + errorPercent))
  let finalScore := baseScore * multiplier
  (errorPercent, if 25 < errorPercent then 0 else finalScore)

/-- `UPDATE submissions SET score = ?, error_percent = ? WHERE id = ?`. -/
def markSub (xs : List Submission) (sid : Nat) (fs ep : ℚ) : List Submission :=
  xs.map (fun x => if x.id == sid then { x with score := fs, error_percent := some ep } else x)

/-- `UPDATE teams SET balance = balance - ? + ? WHERE id = ?`. -/
def settleTeam (ts : List Team) (tid : Nat) (bid fs : ℚ) : List Team :=
  ts.map (fun t => if t.id == tid then { t with balance := t.balance - bid + fs } else t)

/-- The reveal settlement loop: it walks the snapshot of the round's
submissions and, for each, writes the computed score and error percent back
to the row and applies `balance - bid + finalScore` to the owning team. -/
def settleSubs (actualValue : ℚ) : GameState → List Submission → GameState
  | st, [] => st
  | st, sub :: rest =>
    let r := settleScore sub.predicted_value actualValue sub.bid_amount
    settleSubs actualValue
      { st with
        submissions := markSub st.submissions sub.id r.2 r.1,
        teams := settleTeam st.teams sub.team_id sub.bid_amount r.2 }
      rest

/-- Handler `POST /api/admin/rounds/reveal`.  Unconditionally updates the
round row (`actual_value`, `status = 'revealed'`), reads the round's
submissions, runs the settlement loop over them, broadcasts
`ROUND_REVEALED` and answers `{success: true}`.  The handler has no
error path besides the auth middleware. -/
def revealRound (s : GameState) (roundId : Nat) (actualValue : ℚ) : GameState × Event :=
  let s1 : GameState :=
    { s with
      rounds := s.rounds.map (fun r =>
        if r.id == roundId then { r with actual_value := some actualValue, status := "revealed" }
        else r) }
  let subs := s.submissions.filter (fun sub => sub.round_id == roundId)
  (settleSubs actualValue s1 subs, .roundRevealed roundId actualValue)

/-- Handler `POST /api/admin/rounds`.  Forces every round whose status is
not `'revealed'` to `'revealed'`, inserts a fresh round (status defaults to
`'open'`, `actual_value` NULL) and broadcasts `ROUND_STARTED`. -/
def startRound (s : GameState) (theme : String) : GameState × Event :=
  let forced := s.rounds.map (fun r =>
    if r.status ≠ "revealed" then { r with status := "revealed" } else r)
  let newRound : Round :=
    { id := s.nextRoundId, theme := theme, actual_value := none, status := "open" }
  ({ s with rounds := forced ++ [newRound], nextRoundId := s.nextRoundId + 1 },
   .roundStarted s.nextRoundId theme "open")

/-- Fold step selecting the row with the largest id. -/
def laterRound (acc : Option Round) (r : Round) : Option Round :=
  match acc with
  | none => some r
  | some best => if best.id < r.id then some r else some best

/-- Handler `GET /api/rounds/current`:
`SELECT * FROM rounds ORDER BY id DESC LIMIT 1`, i.e. the row with the
largest id, or NULL when the table is empty. -/
def currentRound (s : GameState) : Option Round :=
  s.rounds.foldl laterRound none

/-- Handler `POST /api/teams/join`.  `INSERT INTO teams (name)` (balance
defaults to 2000); on the UNIQUE-name conflict the existing row is
returned instead and nothing is inserted. -/
def joinTeam (s : GameState) (name : String) : GameState × Option Team :=
  match s.teams.find? (fun t => t.name == name) with
  | some t => (s, some t)
  | none =>
    let t : Team := { id := s.nextTeamId, name := name, balance := 2000 }
    ({ s with teams := s.teams ++ [t], nextTeamId := s.nextTeamId + 1 }, some t)

/-- Handler `POST /api/admin/settings`:
`INSERT OR REPLACE INTO settings (key, value)`. -/
def updateSetting (s : GameState) (key value : String) : GameState × Event :=
  let settings :=
    if s.settings.any (fun kv => kv.1 == key) then
      s.settings.map (fun kv => if kv.1 == key then (key, value) else kv)
    else s.settings ++ [(key, value)]
  ({ s with settings := settings }, .settingsUpdated key value)

/-- Handler `POST /api/admin/reset`: deletes every row of `submissions`,
`rounds` and `teams`, resets their AUTOINCREMENT counters, leaves
`settings` alone, broadcasts `GAME_RESET`. -/
def resetGame (s : GameState) : GameState × Event :=
  ({ teams := [], rounds := [], submissions := [], settings := s.settings,
     nextTeamId := 1, nextRoundId := 1, nextSubmissionId := 1 },
   .gameReset)

/-- Sum of the `balance` column over the `teams` table. -/
def totalBalance (ts : List Team) : ℚ :=
  (ts.map Team.balance).sum

/-- Error percent exactly as claim C2 words it: the divisor is the
absolute value `|a|` of the actual value. -/
def claimErrorPercent (p a : ℚ) : ℚ :=
  if a = 0 then (if p = 0 then 0 else 100) else (|p - a| / |a|) * 100

/-- Error percent as the amended claim words it: the divisor is the
actual value `a` itself (signed), as the loop body divides by
`actualValue`, not by its absolute value. -/
def claimErrorPercentAmended (p a : ℚ) : ℚ :=
  if a = 0 then (if p = 0 then 0 else 100) else (|p - a| / a) * 100

/-- Multiplier tiers as claim C2 words them, first match winning. -/
def claimMultiplier (ep : ℚ) : ℚ :=
  if ep ≤ 2 then 3 else if ep ≤ 5 then 2 else if ep ≤ 10 then 3/2 else 1

/-- Final score as the amended claim words it: `b * (1 / (1 + errorPercent))`
times the tier multiplier, overridden to `0` when `errorPercent > 25`. -/
def claimScoreAmended (p a b : ℚ) : ℚ :=
  let ep := claimErrorPercentAmended p a
  if 25 < ep then 0 else b * (1 / (1 + ep)) * claimMultiplier ep

/-- The row update the amended claim C2 predicts for a settled submission. -/
def claimSettledRow (a : ℚ) (x : Submission) : Submission :=
  { x with score := claimScoreAmended x.predicted_value a x.bid_amount,
           error_percent := some (claimErrorPercentAmended x.predicted_value a) }

/-- A submission row after the settlement loop wrote its score and error
percent back, with the values the loop computes. -/
def settledSub (a : ℚ) (x : Submission) : Submission :=
  { x with score := (settleScore x.predicted_value a x.bid_amount).2,
           error_percent := some (settleScore x.predicted_value a x.bid_amount).1 }

/-- One team (balance 2000), one open round, one submission predicting 100
with a 50-coin bid: the state right before a first reveal. -/
def C1s : GameState :=
  { teams := [⟨1, "A", 2000⟩],
    rounds := [⟨1, "th", none, "open"⟩],
    submissions := [⟨1, 1, 1, 100, 50, 0, none⟩],
    settings := [("game_title", "DATA PARADOX")],
    nextTeamId := 2, nextRoundId := 2, nextSubmissionId := 2 }

/-- One team, one open round, one submission predicting 0 with a 50-coin
bid: about to be revealed with a negative actual value. -/
def C2s : GameState :=
  { teams := [⟨1, "A", 2000⟩],
    rounds := [⟨1, "th", none, "open"⟩],
    submissions := [⟨1, 1, 1, 0, 50, 0, none⟩],
    settings := [],
    nextTeamId := 2, nextRoundId := 2, nextSubmissionId := 2 }

/-- One team (balance 2000) that already has a submission for round 1. -/
def C4s : GameState :=
  { teams := [⟨1, "A", 2000⟩],
    rounds := [⟨1, "th", none, "open"⟩],
    submissions := [⟨1, 1, 1, 100, 50, 0, none⟩],
    settings := [],
    nextTeamId := 2, nextRoundId := 2, nextSubmissionId := 2 }

/-- One team and one round that is already revealed, no submissions yet. -/
def C5s : GameState :=
  { teams := [⟨1, "A", 2000⟩],
    rounds := [⟨1, "th", some 5, "revealed"⟩],
    submissions := [],
    settings := [],
    nextTeamId := 2, nextRoundId := 2, nextSubmissionId := 1 }

/-- One team and one open round, no submissions yet. -/
def C6s : GameState :=
  { teams := [⟨1, "A", 2000⟩],
    rounds := [⟨1, "th", none, "open"⟩],
    submissions := [],
    settings := [],
    nextTeamId := 2, nextRoundId := 2, nextSubmissionId := 1 }

/-- One not-yet-revealed round, for exercising `startRound`. -/
def C7s : GameState :=
  { teams := [⟨1, "A", 2000⟩],
    rounds := [⟨1, "old", none, "open"⟩],
    submissions := [],
    settings := [],
    nextTeamId := 2, nextRoundId := 2, nextSubmissionId := 1 }

/-- A state with no round at all but an orphan submission whose
`round_id` is 999 — reachable because `submit` never checks that its
`roundId` refers to an existing round. -/
def C10s : GameState :=
  { teams := [⟨1, "A", 2000⟩],
    rounds := [],
    submissions := [⟨1, 1, 999, 100, 50, 0, none⟩],
    settings := [],
    nextTeamId := 2, nextRoundId := 1, nextSubmissionId := 2 }

instance {ε α : Type} [DecidableEq ε] [DecidableEq α] : DecidableEq (Except ε α) := fun a b =>
  match a, b with
  | .error e1, .error e2 => decidable_of_iff (e1 = e2) (by simp)
  | .ok a1, .ok a2 => decidable_of_iff (a1 = a2) (by simp)
  | .error _, .ok _ => .isFalse (by simp)
  | .ok _, .error _ => .isFalse (by simp)

/-- The settlement loop's per-submission computation agrees with the
amended claim-side formulas (signed divisor). -/
theorem settleScore_eq_claim (p a b : ℚ) :
    settleScore p a b = (claimErrorPercentAmended p a, claimScoreAmended p a b) := rfl

/-- C9: a successful reset deletes all teams, all rounds and all
submissions, and leaves every settings key/value pair unchanged. -/
theorem reset_clears_all_but_settings (s : GameState) :
    (resetGame s).1.teams = [] ∧ (resetGame s).1.rounds = [] ∧
    (resetGame s).1.submissions = [] ∧ (resetGame s).1.settings = s.settings ∧
    (resetGame s).2 = Event.gameReset :=
  ⟨rfl, rfl, rfl, rfl, rfl⟩

/-- C5: the code never looks at the round when handling a submission.  In
`C5s` round 1 is already revealed, yet `submit` succeeds and records the
submission instead of rejecting it. -/
theorem submit_accepts_revealed_round :
    C5s.rounds = [⟨1, "th", some 5, "revealed"⟩] ∧
    submit C5s 1 1 100 50
      = .ok ({ C5s with submissions := [⟨1, 1, 1, 100, 50, 0, none⟩], nextSubmissionId := 2 },
             .submissionReceived 1) := by
  decide

/-- C6: the code never validates `predictedValue` or `bidAmount`.  A bid
of 0 (not a positive number) passes the only check there is — the balance
comparison — and a submission with `bid_amount = 0` is persisted. -/
theorem submit_accepts_nonpositive_bid :
    ((0 : ℚ) ≤ 0) ∧
    submit C6s 1 1 100 0
      = .ok ({ C6s with submissions := [⟨1, 1, 1, 100, 0, 0, none⟩], nextSubmissionId := 2 },
             .submissionReceived 1) := by
  decide

/-- C1: the reveal handler has no already-revealed guard.  Revealing round
1 of `C1s` settles it (balance 2000 → 2100); revealing it a second time
with the same actual value does not fail — it answers with the same
success event and applies settlement again, moving the balance to 2200. -/
theorem reveal_twice_reapplies_settlement :
    (revealRound C1s 1 100).1.teams = [⟨1, "A", 2100⟩] ∧
    (revealRound (revealRound C1s 1 100).1 1 100).1.teams = [⟨1, "A", 2200⟩] ∧
    (revealRound (revealRound C1s 1 100).1 1 100).2 = Event.roundRevealed 1 100 := by
  norm_num [C1s, revealRound, settleSubs, settleScore, markSub, settleTeam]

/-- C3 as stated fails: for the finite values p = -98, a = -100, b = 50
(bid positive), the loop divides by the signed actual value, gets
errorPercent = -2, lands in the 3× tier and produces finalScore = -150,
which is negative. -/
theorem settleScore_negative_cex :
    (0:ℚ) < 50 ∧ (settleScore (-98) (-100) 50).2 = -150 ∧
    ¬ (0 ≤ (settleScore (-98) (-100) 50).2) := by
  norm_num [settleScore]

/-- C3 amended: when the actual value is nonnegative (and the bid is
positive) the computed finalScore is nonnegative, and for every input the
finalScore is 0 whenever the computed errorPercent exceeds 25. -/
theorem settleScore_nonneg_of_nonneg_actual (p a b : ℚ) (ha : 0 ≤ a) (hb : 0 < b) :
    0 ≤ (settleScore p a b).2 ∧
    (25 < (settleScore p a b).1 → (settleScore p a b).2 = 0) := by
  rcases eq_or_lt_of_le ha with ha0 | hapos
  · rcases eq_or_ne p 0 with hp | hp
    · simp [settleScore, ← ha0, hp]
      norm_num
      exact hb.le
    · simp [settleScore, ← ha0, hp]
      norm_num
  · have hane : a ≠ 0 := ne_of_gt hapos
    have hep : 0 ≤ |p - a| / a * 100 := by positivity
    have h1ep : (0:ℚ) < 1 + |p - a| / a * 100 := by linarith
    have hinv : (0:ℚ) ≤ 1 / (1 + |p - a| / a * 100) := (one_div_pos.mpr h1ep).le
    simp only [settleScore, if_neg hane]
    constructor
    · split_ifs with h25
      · exact le_refl 0
      all_goals exact mul_nonneg (mul_nonneg hb.le hinv) (by norm_num)
    · intro h
      rw [if_pos h]

/-- Witness for `settleScore_nonneg_of_nonneg_actual` at p = 120, a = 100,
b = 50. -/
theorem settleScore_nonneg_witness :
    (0:ℚ) ≤ 100 ∧ (0:ℚ) < 50 ∧
    (0 ≤ (settleScore 120 100 50).2 ∧
      (25 < (settleScore 120 100 50).1 → (settleScore 120 100 50).2 = 0)) :=
  ⟨by decide, by decide,
   settleScore_nonneg_of_nonneg_actual 120 100 50 (by decide) (by decide)⟩

/-- C4 as stated is too strong: when a duplicate submission exists but the
balance check also fails, the handler answers with the insufficient-balance
error, not the conflict error, because the balance check runs first. -/
theorem submit_duplicate_insufficient_cex :
    (∃ sub ∈ C4s.submissions, sub.team_id = 1 ∧ sub.round_id = 1) ∧
    submit C4s 1 1 100 3000 = .error .insufficientBalance ∧
    SubmitError.insufficientBalance ≠ SubmitError.alreadySubmitted := by
  decide

/-- C4 amended: whenever a submission already exists for (teamId, roundId),
`submit` fails (inserting nothing, the state unchanged), and it fails with
the conflict error whenever the team lookup and balance check pass; when
the balance check fails the error is the insufficient-balance one instead. -/
theorem submit_duplicate_always_fails (s : GameState) (teamId roundId : Nat) (p b : ℚ)
    (hdup : ∃ sub ∈ s.submissions, sub.team_id = teamId ∧ sub.round_id = roundId) :
    (∃ e, submit s teamId roundId p b = .error e) ∧
    submitState s teamId roundId p b = s ∧
    (∀ t, s.teams.find? (fun u => u.id == teamId) = some t → ¬ t.balance < b →
      submit s teamId roundId p b = .error .alreadySubmitted) := by
  have hfind : ∃ y, s.submissions.find?
      (fun sub => sub.team_id == teamId && sub.round_id == roundId) = some y := by
    rw [← Option.isSome_iff_exists, List.find?_isSome]
    obtain ⟨sub, hs, h1, h2⟩ := hdup
    exact ⟨sub, hs, by simp [h1, h2]⟩
  obtain ⟨y, hy⟩ := hfind
  rcases ht : s.teams.find? (fun u => u.id == teamId) with _ | team
  · refine ⟨⟨.insufficientBalance, ?_⟩, ?_, ?_⟩
    · simp [submit, ht]
    · simp [submitState, submit, ht]
    · intro t h1 _
      rw [ht] at h1
      cases h1
  · by_cases hlt : team.balance < b
    · refine ⟨⟨.insufficientBalance, ?_⟩, ?_, ?_⟩
      · simp [submit, ht, hlt]
      · simp [submitState, submit, ht, hlt]
      · intro t h1 h2
        rw [ht] at h1
        injection h1 with h1
        subst h1
        exact absurd hlt h2
    · refine ⟨⟨.alreadySubmitted, ?_⟩, ?_, ?_⟩
      · simp [submit, ht, hlt, hy]
      · simp [submitState, submit, ht, hlt, hy]
      · intro t h1 h2
        simp [submit, ht, hlt, hy]

/-- Witness for `submit_duplicate_always_fails` on `C4s` with a bid the
team can afford. -/
theorem submit_duplicate_always_fails_witness :
    (∃ sub ∈ C4s.submissions, sub.team_id = 1 ∧ sub.round_id = 1) ∧
    ((∃ e, submit C4s 1 1 100 50 = .error e) ∧
     submitState C4s 1 1 100 50 = C4s ∧
     (∀ t, C4s.teams.find? (fun u => u.id == 1) = some t → ¬ t.balance < 50 →
       submit C4s 1 1 100 50 = .error .alreadySubmitted)) :=
  ⟨by decide, submit_duplicate_always_fails C4s 1 1 100 50 (by decide)⟩

/-- C10 amended: a reveal whose roundId matches no round and no
submission row touches nothing: it returns the state unchanged and still
emits the `ROUND_REVEALED` broadcast with that roundId — there is no
not-found error path. -/
theorem reveal_unknown_round_noop (s : GameState) (roundId : Nat) (a : ℚ)
    (hr : ∀ r ∈ s.rounds, r.id ≠ roundId)
    (hsub : ∀ x ∈ s.submissions, x.round_id ≠ roundId) :
    revealRound s roundId a = (s, Event.roundRevealed roundId a) := by
  have h1 : s.rounds.map (fun r =>
      if r.id == roundId then { r with actual_value := some a, status := "revealed" }
      else r) = s.rounds := by
    conv_rhs => rw [← List.map_id s.rounds]
    apply List.map_congr_left
    intro r hrr
    simp [hr r hrr]
  have h2 : s.submissions.filter (fun sub => sub.round_id == roundId) = [] := by
    rw [List.filter_eq_nil_iff]
    intro x hx
    simp [hsub x hx]
  simp only [revealRound, h1, h2]
  rfl

/-- Witness for `reveal_unknown_round_noop` on `C1s` with the unknown
round id 999. -/
theorem reveal_unknown_round_noop_witness :
    (∀ r ∈ C1s.rounds, r.id ≠ 999) ∧ (∀ x ∈ C1s.submissions, x.round_id ≠ 999) ∧
    revealRound C1s 999 5 = (C1s, Event.roundRevealed 999 5) :=
  ⟨by decide, by decide, reveal_unknown_round_noop C1s 999 5 (by decide) (by decide)⟩

/-- C10 as stated fails: in `C10s` no round has id 999, yet a submission
row references round 999 (reachable, since `submit` never checks that the
round exists), so `reveal(999, 100)` settles that row and moves the team
balance from 2000 to 2100 instead of leaving every balance unchanged. -/
theorem reveal_unknown_round_settles_orphan_cex :
    (∀ r ∈ C10s.rounds, r.id ≠ 999) ∧
    C10s.teams = [⟨1, "A", 2000⟩] ∧
    (revealRound C10s 999 100).1.teams = [⟨1, "A", 2100⟩] ∧
    ((2100:ℚ) ≠ 2000) := by
  refine ⟨by decide, rfl, ?_, by norm_num⟩
  norm_num [C10s, revealRound, settleSubs, settleScore, markSub, settleTeam]

/-- C2 as stated fails: the loop divides by the signed `actualValue`, not
by its absolute value.  Revealing round 1 of `C2s` (prediction 0) with
actual value -100 stores error_percent = -100, while the claim's formula
`(|p - a| / |a|) * 100` gives 100. -/
theorem reveal_error_percent_sign_cex :
    ((revealRound C2s 1 (-100)).1.submissions.map Submission.error_percent
       = [some (-100)]) ∧
    claimErrorPercent 0 (-100) = 100 ∧
    some ((-100:ℚ)) ≠ some ((100:ℚ)) := by
  refine ⟨?_, ?_, by norm_num⟩
  · norm_num [C2s, revealRound, settleSubs, settleScore, markSub, settleTeam]
  · norm_num [claimErrorPercent]

lemma laterRound_lt (rs : List Round) (n : Nat) :
    ∀ acc : Option Round, (∀ b ∈ acc, b.id < n) → (∀ r ∈ rs, r.id < n) →
    ∀ b ∈ rs.foldl laterRound acc, b.id < n := by
  induction rs with
  | nil =>
    intro acc hacc _ b hb
    exact hacc b hb
  | cons r rest ih =>
    intro acc hacc hrs b hb
    simp only [List.foldl_cons] at hb
    refine ih (laterRound acc r) ?_ (fun u hu => hrs u (List.mem_cons_of_mem _ hu)) b hb
    intro c hc
    rcases acc with _ | best
    · simp [laterRound, Option.mem_def] at hc
      subst hc
      exact hrs r (List.mem_cons_self _ _)
    · by_cases h : best.id < r.id
      · simp [laterRound, h, Option.mem_def] at hc
        subst hc
        exact hrs r (List.mem_cons_self _ _)
      · simp [laterRound, h, Option.mem_def] at hc
        subst hc
        exact hacc best rfl

lemma currentRound_append (rs : List Round) (new : Round)
    (h : ∀ r ∈ rs, r.id < new.id) :
    (rs ++ [new]).foldl laterRound none = some new := by
  rw [List.foldl_append]
  rcases hacc : rs.foldl laterRound none with _ | best
  · rfl
  · have hb : best.id < new.id :=
      laterRound_lt rs new.id none (by simp) h best (Option.mem_def.mpr hacc)
    simp [laterRound, hb]

/-- C7: `startRound` forces every existing round to status 'revealed'
(keeping its id, theme and actual_value), touches neither submissions nor
teams nor settings, and appends a fresh round with the given theme, status
'open' and NULL actual_value, which becomes the current round; the
`ROUND_STARTED` event carries the new round's id, theme and 'open'.  The
hypothesis that existing ids are below the AUTOINCREMENT counter is the
primary-key invariant of the store. -/
theorem startRound_forces_reveal_and_opens (s : GameState) (theme : String)
    (hids : ∀ r ∈ s.rounds, r.id < s.nextRoundId) :
    (∀ r ∈ s.rounds,
       ({ id := r.id, theme := r.theme, actual_value := r.actual_value,
          status := "revealed" } : Round) ∈ (startRound s theme).1.rounds) ∧
    (∀ r ∈ (startRound s theme).1.rounds,
       r.status = "revealed" ∨
       r = { id := s.nextRoundId, theme := theme, actual_value := none, status := "open" }) ∧
    (startRound s theme).1.submissions = s.submissions ∧
    (startRound s theme).1.teams = s.teams ∧
    (startRound s theme).1.settings = s.settings ∧
    currentRound (startRound s theme).1
      = some { id := s.nextRoundId, theme := theme, actual_value := none, status := "open" } ∧
    (startRound s theme).2 = Event.roundStarted s.nextRoundId theme "open" := by
  refine ⟨?_, ?_, rfl, rfl, rfl, ?_, rfl⟩
  · intro r hr
    simp only [startRound]
    apply List.mem_append_left
    have himg : (fun u : Round =>
        if u.status ≠ "revealed" then { u with status := "revealed" } else u) r
        = { id := r.id, theme := r.theme, actual_value := r.actual_value,
            status := "revealed" } := by
      by_cases h : r.status = "revealed"
      · cases r
        simp_all
      · simp [h]
    rw [← himg]
    exact List.mem_map_of_mem _ hr
  · intro r hr
    simp only [startRound, List.mem_append] at hr
    rcases hr with h | h
    · obtain ⟨u, hu, hur⟩ := List.mem_map.mp h
      left
      by_cases hs : u.status = "revealed"
      · simp [hs] at hur
        rw [← hur]
        exact hs
      · simp [hs] at hur
        rw [← hur]
    · right
      simpa using h
  · show ((s.rounds.map _) ++ [_]).foldl laterRound none = _
    apply currentRound_append
    intro r hr
    obtain ⟨u, hu, hur⟩ := List.mem_map.mp hr
    have hlt := hids u hu
    rw [← hur]
    by_cases hs : u.status = "revealed"
    · simpa [hs] using hlt
    · simpa [hs] using hlt

/-- Witness for `startRound_forces_reveal_and_opens` on `C7s`. -/
theorem startRound_forces_reveal_and_opens_witness :
    (∀ r ∈ C7s.rounds, r.id < C7s.nextRoundId) ∧
    ((∀ r ∈ C7s.rounds,
       ({ id := r.id, theme := r.theme, actual_value := r.actual_value,
          status := "revealed" } : Round) ∈ (startRound C7s "new").1.rounds) ∧
    (∀ r ∈ (startRound C7s "new").1.rounds,
       r.status = "revealed" ∨
       r = { id := C7s.nextRoundId, theme := "new", actual_value := none, status := "open" }) ∧
    (startRound C7s "new").1.submissions = C7s.submissions ∧
    (startRound C7s "new").1.teams = C7s.teams ∧
    (startRound C7s "new").1.settings = C7s.settings ∧
    currentRound (startRound C7s "new").1
      = some { id := C7s.nextRoundId, theme := "new", actual_value := none, status := "open" } ∧
    (startRound C7s "new").2 = Event.roundStarted C7s.nextRoundId "new" "open") :=
  ⟨by decide, startRound_forces_reveal_and_opens C7s "new" (by decide)⟩

lemma totalBalance_cons (t : Team) (ts : List Team) :
    totalBalance (t :: ts) = t.balance + totalBalance ts := by
  simp [totalBalance]

lemma settleTeam_map_id (ts : List Team) (tid : Nat) (bid fs : ℚ) :
    (settleTeam ts tid bid fs).map Team.id = ts.map Team.id := by
  unfold settleTeam
  rw [List.map_map]
  apply List.map_congr_left
  intro t _
  by_cases h : t.id == tid <;> simp [h, Function.comp]

lemma settleTeam_no_match (ts : List Team) (tid : Nat) (bid fs : ℚ)
    (h : ∀ t ∈ ts, t.id ≠ tid) : settleTeam ts tid bid fs = ts := by
  unfold settleTeam
  conv_rhs => rw [← List.map_id ts]
  apply List.map_congr_left
  intro t ht
  simp [h t ht]

lemma totalBalance_settleTeam (ts : List Team) (tid : Nat) (bid fs : ℚ)
    (hnodup : (ts.map Team.id).Nodup) (hmem : tid ∈ ts.map Team.id) :
    totalBalance (settleTeam ts tid bid fs) = totalBalance ts + (fs - bid) := by
  induction ts with
  | nil => simp at hmem
  | cons t rest ih =>
    simp only [List.map_cons, List.nodup_cons] at hnodup
    obtain ⟨hnotin, hnodup2⟩ := hnodup
    by_cases h : t.id = tid
    · have hrest : ∀ u ∈ rest, u.id ≠ tid := by
        intro u hu he
        exact hnotin (h ▸ he ▸ List.mem_map_of_mem Team.id hu)
      unfold settleTeam
      simp only [List.map_cons]
      rw [show ((if t.id == tid then { t with balance := t.balance - bid + fs } else t) : Team)
            = { t with balance := t.balance - bid + fs } by simp [h]]
      rw [show (rest.map (fun u =>
            if u.id == tid then { u with balance := u.balance - bid + fs } else u)) = rest
          from settleTeam_no_match rest tid bid fs hrest]
      rw [totalBalance_cons, totalBalance_cons]
      simp
      ring
    · have hmem2 : tid ∈ rest.map Team.id := by
        rcases List.mem_cons.mp hmem with h1 | h1
        · exact absurd h1.symm h
        · exact h1
      unfold settleTeam
      simp only [List.map_cons]
      rw [show ((if t.id == tid then { t with balance := t.balance - bid + fs } else t) : Team)
            = t by simp [h]]
      rw [totalBalance_cons, totalBalance_cons]
      have hrec := ih hnodup2 hmem2
      unfold settleTeam at hrec
      rw [hrec]
      ring

lemma settleSubs_totalBalance (a : ℚ) (subs : List Submission) :
    ∀ st : GameState, (st.teams.map Team.id).Nodup →
    (∀ sub ∈ subs, sub.team_id ∈ st.teams.map Team.id) →
    totalBalance (settleSubs a st subs).teams
      = totalBalance st.teams
        + (subs.map (fun sub =>
            (settleScore sub.predicted_value a sub.bid_amount).2 - sub.bid_amount)).sum := by
  induction subs with
  | nil =>
    intro st _ _
    simp [settleSubs]
  | cons sub rest ih =>
    intro st hnodup hex
    simp only [settleSubs]
    have hid : (settleTeam st.teams sub.team_id sub.bid_amount
        (settleScore sub.predicted_value a sub.bid_amount).2).map Team.id
        = st.teams.map Team.id := settleTeam_map_id _ _ _ _
    rw [ih _ (by rw [hid]; exact hnodup)
          (by intro u hu; rw [hid]; exact hex u (List.mem_cons_of_mem _ hu))]
    simp only [List.map_cons, List.sum_cons]
    rw [totalBalance_settleTeam st.teams sub.team_id sub.bid_amount _
          hnodup (hex sub (List.mem_cons_self _ _))]
    ring

lemma submitState_teams (s : GameState) (tid rid : Nat) (p b : ℚ) :
    (submitState s tid rid p b).teams = s.teams := by
  rcases ht : s.teams.find? (fun u => u.id == tid) with _ | team
  · simp [submitState, submit, ht]
  · by_cases hlt : team.balance < b
    · simp [submitState, submit, ht, hlt]
    · rcases hd : s.submissions.find?
          (fun sub => sub.team_id == tid && sub.round_id == rid) with _ | y
      · simp [submitState, submit, ht, hlt, hd]
      · simp [submitState, submit, ht, hlt, hd]

/-- C8: as long as every settled submission's owning team exists (and team
ids are unique, the primary-key invariant), a reveal changes the sum of
all balances by exactly the sum over the round's submissions of
(finalScore − bidAmount); and no other handler moves a balance — submit,
startRound and updateSetting leave the teams table unchanged, and join
either returns it unchanged or appends one fresh team with balance 2000. -/
theorem reveal_balance_conservation (s : GameState) (roundId : Nat) (a : ℚ)
    (tid rid : Nat) (p b : ℚ) (theme key value nm : String)
    (hnodup : (s.teams.map Team.id).Nodup)
    (hteams : ∀ sub ∈ s.submissions.filter (fun sub => sub.round_id == roundId),
        sub.team_id ∈ s.teams.map Team.id) :
    totalBalance (revealRound s roundId a).1.teams
      = totalBalance s.teams
        + ((s.submissions.filter (fun sub => sub.round_id == roundId)).map
             (fun sub => (settleScore sub.predicted_value a sub.bid_amount).2
               - sub.bid_amount)).sum ∧
    (submitState s tid rid p b).teams = s.teams ∧
    (startRound s theme).1.teams = s.teams ∧
    (updateSetting s key value).1.teams = s.teams ∧
    ((joinTeam s nm).1.teams = s.teams ∨
      (joinTeam s nm).1.teams
        = s.teams ++ [{ id := s.nextTeamId, name := nm, balance := 2000 }]) := by
  refine ⟨?_, submitState_teams s tid rid p b, rfl, rfl, ?_⟩
  · simp only [revealRound]
    exact settleSubs_totalBalance a _ _ hnodup hteams
  · rcases h : s.teams.find? (fun t => t.name == nm) with _ | t
    · right
      simp [joinTeam, h]
    · left
      simp [joinTeam, h]

/-- Witness for `reveal_balance_conservation` on `C1s`. -/
theorem reveal_balance_conservation_witness :
    ((C1s.teams.map Team.id).Nodup ∧
     (∀ sub ∈ C1s.submissions.filter (fun sub => sub.round_id == 1),
        sub.team_id ∈ C1s.teams.map Team.id)) ∧
    (totalBalance (revealRound C1s 1 100).1.teams
      = totalBalance C1s.teams
        + ((C1s.submissions.filter (fun sub => sub.round_id == 1)).map
             (fun sub => (settleScore sub.predicted_value 100 sub.bid_amount).2
               - sub.bid_amount)).sum ∧
    (submitState C1s 1 1 0 10).teams = C1s.teams ∧
    (startRound C1s "t").1.teams = C1s.teams ∧
    (updateSetting C1s "k" "v").1.teams = C1s.teams ∧
    ((joinTeam C1s "B").1.teams = C1s.teams ∨
      (joinTeam C1s "B").1.teams
        = C1s.teams ++ [{ id := C1s.nextTeamId, name := "B", balance := 2000 }])) :=
  ⟨⟨by decide, by decide⟩,
   reveal_balance_conservation C1s 1 100 1 1 0 10 "t" "k" "v" "B" (by decide) (by decide)⟩

lemma settledSub_eq_claimSettledRow (a : ℚ) (x : Submission) :
    settledSub a x = claimSettledRow a x := rfl

lemma markSub_map_id (xs : List Submission) (sid : Nat) (fs ep : ℚ) :
    (markSub xs sid fs ep).map Submission.id = xs.map Submission.id := by
  unfold markSub
  rw [List.map_map]
  apply List.map_congr_left
  intro x _
  by_cases h : x.id == sid <;> simp [h, Function.comp]

lemma mem_markSub_of_ne (xs : List Submission) (sid : Nat) (fs ep : ℚ)
    (x : Submission) (hx : x ∈ xs) (hne : x.id ≠ sid) : x ∈ markSub xs sid fs ep := by
  unfold markSub
  have h := List.mem_map_of_mem
    (fun y : Submission =>
      if y.id == sid then { y with score := fs, error_percent := some ep } else y) hx
  simpa [hne] using h

lemma settleSubs_submissions (a : ℚ) (subs : List Submission) :
    ∀ st : GameState,
    (st.submissions.map Submission.id).Nodup →
    (subs.map Submission.id).Nodup →
    (∀ y ∈ subs, y ∈ st.submissions) →
    (settleSubs a st subs).submissions
      = st.submissions.map (fun x =>
          if x.id ∈ subs.map Submission.id then settledSub a x else x) := by
  induction subs with
  | nil =>
    intro st _ _ _
    simp [settleSubs]
  | cons sub rest ih =>
    intro st hnodup hsubs h
    have hsub_mem : sub ∈ st.submissions := h sub (List.mem_cons_self _ _)
    simp only [List.map_cons, List.nodup_cons] at hsubs
    obtain ⟨hhead, htail⟩ := hsubs
    simp only [settleSubs]
    rw [ih _ ?h1 htail ?h2]
    case h1 =>
      show ((markSub st.submissions sub.id _ _).map Submission.id).Nodup
      rw [markSub_map_id]
      exact hnodup
    case h2 =>
      intro y hy
      show y ∈ markSub st.submissions sub.id _ _
      refine mem_markSub_of_ne _ _ _ _ y (h y (List.mem_cons_of_mem _ hy)) ?_
      intro he
      exact hhead (he ▸ List.mem_map_of_mem Submission.id hy)
    show (markSub st.submissions sub.id _ _).map _ = _
    unfold markSub
    rw [List.map_map]
    apply List.map_congr_left
    intro x hx
    simp only [Function.comp_apply]
    by_cases hxe : x.id = sub.id
    · have hxsub : x = sub := List.inj_on_of_nodup_map hnodup hx hsub_mem hxe
      subst hxsub
      simp [settledSub, hhead, List.mem_cons]
    · simp [hxe, List.mem_cons]

/-- C2 amended: a reveal rewrites exactly the submissions of the revealed
round, each getting error_percent `a = 0 ? (p = 0 ? 0 : 100) : (|p−a|/a)·100`
(signed divisor — the only change from the claim, which divides by `|a|`)
and score `b · (1/(1+errorPercent))` times the first matching tier
multiplier (≤2 → 3, ≤5 → 2, ≤10 → 3/2, else 1), overridden to 0 when
errorPercent > 25; submissions of other rounds are untouched.  The
hypothesis is the primary-key uniqueness of submission ids. -/
theorem reveal_settles_submissions_amended (s : GameState) (roundId : Nat) (a : ℚ)
    (hnodup : (s.submissions.map Submission.id).Nodup) :
    (revealRound s roundId a).1.submissions
      = s.submissions.map (fun x =>
          if x.round_id = roundId then claimSettledRow a x else x) := by
  have hsubl : ((s.submissions.filter
      (fun sub => sub.round_id == roundId)).map Submission.id).Nodup :=
    (List.Sublist.map Submission.id (List.filter_sublist s.submissions)).nodup hnodup
  simp only [revealRound]
  refine (settleSubs_submissions a
    (s.submissions.filter (fun sub => sub.round_id == roundId))
    { s with rounds := s.rounds.map (fun r =>
        if r.id == roundId then { r with actual_value := some a, status := "revealed" }
        else r) }
    hnodup hsubl (fun y hy => List.mem_of_mem_filter hy)).trans ?_
  apply List.map_congr_left
  intro x hx
  by_cases hxr : x.round_id = roundId
  · rw [if_pos (List.mem_map_of_mem _ (List.mem_filter.mpr ⟨hx, by simp [hxr]⟩)),
        if_pos hxr]
    exact settledSub_eq_claimSettledRow a x
  · rw [if_neg ?nomem, if_neg hxr]
    case nomem =>
      intro hmem
      obtain ⟨y, hyf, hyx⟩ := List.mem_map.mp hmem
      have hy : y ∈ s.submissions := List.mem_of_mem_filter hyf
      have hyeq : y = x := List.inj_on_of_nodup_map hnodup hy hx hyx
      subst hyeq
      exact hxr (by simpa using (List.mem_filter.mp hyf).2)

/-- Witness for `reveal_settles_submissions_amended` on `C1s`. -/
theorem reveal_settles_submissions_amended_witness :
    (C1s.submissions.map Submission.id).Nodup ∧
    (revealRound C1s 1 100).1.submissions
      = C1s.submissions.map (fun x =>
          if x.round_id = 1 then claimSettledRow 100 x else x) :=
  ⟨by decide, reveal_settles_submissions_amended C1s 1 100 (by decide)⟩

end DataParadox
